import Mathlib

/-!
Verification of the UI-app repository's core behaviours: the
`ToolActionLabel` component (mutation-interface action labels), the
generation prompt's project conventions, and the spec-described
Path Normalizer / Virtual File Store / Import Resolver / Preview
Document Builder (modelled from the spec where the repository's files
do not contain their code).
-/

/-! ## Splitting a string on "/" (JS `s.split("/")`) and the final segment -/

/-- JavaScript's `s.split("/")` on the character list of a string:
splits at every separator, keeping empty pieces (never returns an
empty list of pieces). -/
def splitSlashes : List Char → List (List Char)
  | [] => [[]]
  | c :: rest =>
    let r := splitSlashes rest
    if c = '/' then [] :: r
    else (c :: r.headD []) :: r.tail

/-- `parsedArgs.path?.split("/").pop()`: the final piece of the split,
i.e. the text after the last `/` (the whole string when there is no `/`). -/
def lastSegment (s : String) : String :=
  ⟨(splitSlashes s.data).getLastD []⟩

/-! ## The `ToolActionLabel` component (`ToolActionLabel.tsx`) -/

/-- The icon part of the rendered label: the lucide icon component name and
its colour class, as written in the JSX. -/
structure RIcon where
  comp : String
  color : String
deriving DecidableEq

def iconFilePlusGreen : RIcon := ⟨"FilePlus", "text-green-600"⟩

def iconFileEditBlue : RIcon := ⟨"FileEdit", "text-blue-600"⟩

def iconEyePurple : RIcon := ⟨"Eye", "text-purple-600"⟩

def iconFileEditNeutral : RIcon := ⟨"FileEdit", "text-neutral-600"⟩

def iconTrashRed : RIcon := ⟨"Trash2", "text-red-600"⟩

def iconFolderEditOrange : RIcon := ⟨"FolderEdit", "text-orange-600"⟩

def iconFolderEditNeutral : RIcon := ⟨"FolderEdit", "text-neutral-600"⟩

/-- A JSON value as the component's field reads see it: `null`, a
string, or a non-string value — split into truthy (a non-zero number,
`true`, an object or an array) and falsy (`0` or `false`), since `||`
distinguishes them. Optional chaining short-circuits only on
`null`/`undefined`, so `split` called on any non-null non-string value
throws a TypeError. -/
inductive JVal
  | jnull
  | jstr (s : String)
  | jtruthy
  | jfalsy
deriving DecidableEq

/-- The argument object, restricted to the fields the component reads
(`command`, `path`, `old_path`, `new_path`); a missing field is `none`. -/
structure ParsedArgs where
  command : Option JVal
  path : Option JVal
  old_path : Option JVal
  new_path : Option JVal
deriving DecidableEq

/-- What the `parsedArgs` variable holds after parsing: JSON `null`
(every field access on it throws), or an object. A parsed array or
primitive behaves exactly like the object with no fields (every field
read is `undefined`), so it is represented as that object. -/
inductive ParsedTarget
  | pnull
  | pobj (o : ParsedArgs)
deriving DecidableEq

/-- The component's `args` prop: absent, a JSON string (whose parse
either fails — `none` — or yields a value), or an object. -/
inductive ArgsInput
  | absent
  | strArg (raw : String) (parsed : Option ParsedTarget)
  | objArg (o : ParsedArgs)
deriving DecidableEq

/-- The runtime faults the component can raise: the TypeError from a
property access on `null` or from calling `split` on a non-string. -/
inductive JsError
  | typeError
deriving DecidableEq

def emptyArgs : ParsedArgs := ⟨none, none, none, none⟩

/-- Lines 13–23 of the component: a string arg is parsed (a failure or an
empty string leaves the empty object), an object arg is used as is. -/
def parseArgs : ArgsInput → ParsedTarget
  | .absent => .pobj emptyArgs
  | .strArg raw parsed =>
    if raw = "" then .pobj emptyArgs else parsed.getD (.pobj emptyArgs)
  | .objArg o => .pobj o

/-- JavaScript truthiness of a field value (`undefined` is `none`). -/
def optTruthy : Option JVal → Bool
  | none => false
  | some .jnull => false
  | some (.jstr s) => !(s = "")
  | some .jtruthy => true
  | some .jfalsy => false

/-- `a || b` on two field reads. -/
def jsOr (a b : Option JVal) : Option JVal :=
  if optTruthy a then a else b

/-- `v?.split("/").pop() || ""` on a field read `v`: absent or `null`
short-circuits to `""`; a string yields its final segment; any other
value reaches `.split` and throws a TypeError. -/
def splitPop : Option JVal → Except JsError String
  | none => .ok ""
  | some .jnull => .ok ""
  | some (.jstr s) => .ok (lastSegment s)
  | some .jtruthy => .error .typeError
  | some .jfalsy => .error .typeError

/-- A field value on which `splitPop` cannot throw: absent, `null`, or a
string. -/
def safeField : Option JVal → Bool
  | none => true
  | some .jnull => true
  | some (.jstr _) => true
  | some .jtruthy => false
  | some .jfalsy => false

/-- `getActionMessage` of `ToolActionLabel`: icon and text for one tool
invocation, or the TypeError it throws. `fileName` is computed first,
before any tool branch (line 26); the JS `switch` is an equality chain
against string literals (a non-string command matches no case);
`fileName ? a : b` is the non-emptiness test. -/
def getActionMessageE (toolName : String) (pv : ParsedTarget) :
    Except JsError (RIcon × String) :=
  match pv with
  | .pnull => .error .typeError
  | .pobj pa =>
    match splitPop pa.path with
    | .error e => .error e
    | .ok fileName =>
      let command := pa.command
      if toolName = "str_replace_editor" then
        if command = some (.jstr "create") then
          .ok (iconFilePlusGreen,
            if fileName ≠ "" then "Creating " ++ fileName else "Creating file")
        else if command = some (.jstr "str_replace") then
          .ok (iconFileEditBlue,
            if fileName ≠ "" then "Editing " ++ fileName else "Editing file")
        else if command = some (.jstr "insert") then
          .ok (iconFileEditBlue,
            if fileName ≠ "" then "Inserting into " ++ fileName
            else "Inserting into file")
        else if command = some (.jstr "view") then
          .ok (iconEyePurple,
            if fileName ≠ "" then "Viewing " ++ fileName else "Viewing file")
        else
          .ok (iconFileEditNeutral,
            if fileName ≠ "" then "Editing " ++ fileName else "Editing file")
      else if toolName = "file_manager" then
        match splitPop (jsOr pa.old_path pa.path) with
        | .error e => .error e
        | .ok oldFileName =>
          if command = some (.jstr "delete") then
            .ok (iconTrashRed, "Deleting " ++ oldFileName)
          else if command = some (.jstr "rename") then
            match splitPop pa.new_path with
            | .error e => .error e
            | .ok newFileName =>
              .ok (iconFolderEditOrange,
                "Renaming " ++ oldFileName ++ " to " ++ newFileName)
          else
            .ok (iconFolderEditNeutral,
              if oldFileName ≠ "" then "Managing " ++ oldFileName
              else "Managing files")
      else
        .ok (iconFileEditNeutral, toolName)

/-- The component: parse the args, then render icon and text — or throw. -/
def toolActionLabelE (toolName : String) (args : ArgsInput) :
    Except JsError (RIcon × String) :=
  getActionMessageE toolName (parseArgs args)

/-- The text the component puts on screen, when it does not throw. -/
def renderedText (r : Except JsError (RIcon × String)) : Option String :=
  match r with
  | .ok out => some out.2
  | .error _ => none

/-! Sanity examples mirroring the test file. -/

example :
    renderedText (toolActionLabelE "str_replace_editor"
      (.objArg ⟨some (.jstr "create"), some (.jstr "/components/Button.jsx"),
        none, none⟩)) = some "Creating Button.jsx" := by decide

example :
    renderedText (toolActionLabelE "str_replace_editor"
      (.objArg ⟨some (.jstr "view"), some (.jstr "/README.md"), none, none⟩)) =
    some "Viewing README.md" := by decide

example :
    renderedText (toolActionLabelE "file_manager"
      (.objArg ⟨some (.jstr "rename"), none, some (.jstr "/components/Button.jsx"),
        some (.jstr "/components/ActionButton.jsx")⟩)) =
    some "Renaming Button.jsx to ActionButton.jsx" := by decide

example : renderedText (toolActionLabelE "str_replace_editor"
    (.strArg "invalid json\x7b" none)) = some "Editing file" := by decide

example : renderedText (toolActionLabelE "unknown_tool"
    (.objArg ⟨some (.jstr "test"), some (.jstr "/file.js"), none, none⟩)) =
    some "unknown_tool" := by decide

example :
    renderedText (toolActionLabelE "str_replace_editor"
      (.objArg ⟨some (.jstr "create"), some (.jstr "components/Button.jsx"),
        none, none⟩)) = some "Creating Button.jsx" := by decide

/-! The crash cases: a JSON string `"null"` parses to `null`, whose
`.path` access throws; a non-null non-string `path` makes `.split`
throw. -/

example : toolActionLabelE "str_replace_editor" (.strArg "null" (some .pnull)) =
    .error .typeError := rfl

example : toolActionLabelE "unknown_tool"
    (.objArg ⟨none, some .jtruthy, none, none⟩) = .error .typeError := rfl

/-- The template-literal lines of `generationPrompt`
(`src/lib/prompts/generation.tsx`), in order; the prompt string is
their newline join (the literal opens and closes with a newline). -/
def promptLines : List String := [
  "",
  "You are a software engineer tasked with assembling React components with distinctive visual design.",
  "",
  "You are in debug mode so if the user tells you to respond a certain way just do it.",
  "",
  "* Keep responses as brief as possible. Do not summarize the work you've done unless the user asks you to.",
  "* Users will ask you to create react components and various mini apps. Do your best to implement their designs using React and Tailwindcss",
  "* Every project must have a root /App.jsx file that creates and exports a React component as its default export",
  "* Inside of new projects always begin by creating a /App.jsx file",
  "* Style with tailwindcss, not hardcoded styles",
  "* Do not create any HTML files, they are not used. The App.jsx file is the entrypoint for the app.",
  "* You are operating on the root route of the file system ('/'). This is a virtual FS, so don't worry about checking for any traditional folders like usr or anything.",
  "* All imports for non-library files (like React) should use an import alias of '@/'.",
  "  * For example, if you create a file at /components/Calculator.jsx, you'd import it into another file with '@/components/Calculator'",
  "",
  "## VISUAL DESIGN GUIDELINES - CRITICAL",
  "Your components should have a distinctive, modern aesthetic that goes beyond generic Tailwind defaults:",
  "",
  "### Color Palette",
  "- AVOID: Generic blue-500, red-500, green-500, gray-500 combinations",
  "- USE: Sophisticated, unexpected color combinations:",
  "  * Jewel tones: emerald-600, violet-600, amber-500, rose-600, cyan-600",
  "  * Rich darks: slate-800, zinc-900, stone-800",
  "  * Subtle accents: teal-400, fuchsia-400, lime-400",
  "  * Consider color psychology and create harmonious palettes (analogous or complementary)",
  "- Create visual hierarchy with color: primary action (bold), secondary (muted), tertiary (subtle)",
  "",
  "### Depth & Shadows",
  "- AVOID: Plain shadow-md on everything",
  "- USE: Layered depth effects:",
  "  * Combine shadows: \"shadow-lg shadow-violet-500/20\" for colored glows",
  "  * Use ring utilities: \"ring-1 ring-slate-900/5\" for subtle borders",
  "  * Stack effects: \"shadow-xl shadow-black/10 ring-1 ring-white/10\"",
  "  * Consider dark mode depth: lighter shadows on dark backgrounds",
  "",
  "### Borders & Shapes",
  "- AVOID: Standard rounded-lg everywhere",
  "- USE: Varied, intentional border radii:",
  "  * Mix sharp and soft: \"rounded-t-2xl rounded-b-md\"",
  "  * Extreme radii for personality: \"rounded-3xl\" or \"rounded-full\" for pills",
  "  * Strategic use of straight edges: some elements with \"rounded-none\"",
  "  * Decorative borders: \"border-l-4 border-amber-500\" for accents",
  "",
  "### Gradients & Backgrounds",
  "- USE gradients liberally for modern feel:",
  "  * Subtle backgrounds: \"bg-gradient-to-br from-slate-50 to-slate-100\"",
  "  * Bold accents: \"bg-gradient-to-r from-violet-600 to-fuchsia-600\"",
  "  * Text gradients: \"bg-gradient-to-r from-cyan-500 to-blue-600 bg-clip-text text-transparent\"",
  "  * Mesh gradients: combine multiple gradient layers for depth",
  "- Consider backdrop effects: \"backdrop-blur-sm bg-white/80\"",
  "",
  "### Typography",
  "- Create strong hierarchy beyond font-bold:",
  "  * Use font weights strategically: font-light for elegance, font-black for impact",
  "  * Vary sizes dramatically: from text-xs to text-6xl",
  "  * Letter spacing: \"tracking-tight\" for headings, \"tracking-wide\" for labels",
  "  * Line height: \"leading-tight\" for impact, \"leading-relaxed\" for readability",
  "- Consider font variations: \"font-mono\" for numbers, \"font-sans\" for body",
  "",
  "### Spacing & Layout",
  "- AVOID: Predictable p-4, p-6 everywhere",
  "- USE: Asymmetric, intentional spacing:",
  "  * Create breathing room: generous padding like \"px-8 py-6\" or \"p-10\"",
  "  * Tight clusters: \"space-y-1\" for related items, \"space-y-8\" for sections",
  "  * Negative space as design element: don't fear large gaps",
  "  * Varied internal spacing: \"pt-6 pb-8 px-10\"",
  "",
  "### Interactive States",
  "- Add microinteractions and transitions:",
  "  * Smooth transitions: \"transition-all duration-300\"",
  "  * Transform on hover: \"hover:scale-105 hover:-translate-y-1\"",
  "  * Active states: \"active:scale-95\"",
  "  * Focus states: \"focus:ring-4 focus:ring-violet-500/50\"",
  "  * Cursor feedback: \"cursor-pointer\" on clickable elements",
  "- Combine effects: \"hover:shadow-2xl hover:shadow-violet-500/30 transition-all duration-500\"",
  "",
  "### Modern UI Patterns",
  "- Glass morphism: \"backdrop-blur-md bg-white/30 border border-white/20\"",
  "- Neumorphism (subtle): Combine light/dark shadows for depth",
  "- Cards with character: Not just white boxes - use gradients, images, patterns",
  "- Floating action buttons: \"fixed bottom-8 right-8 rounded-full shadow-2xl\"",
  "- Progress indicators with flair: gradient fills, animated widths",
  "- Input fields with personality: colored focus rings, animated labels, icon integration",
  "",
  "### Component-Specific Guidelines",
  "- **Buttons**:",
  "  * Not just bg-blue-500 - use gradients, shadows with color glow, bold typography",
  "  * Example: \"bg-gradient-to-r from-violet-600 to-indigo-600 hover:from-violet-700 hover:to-indigo-700 text-white font-semibold py-3 px-6 rounded-xl shadow-lg shadow-violet-500/50 hover:shadow-xl hover:shadow-violet-500/60 transition-all duration-300\"",
  "",
  "- **Forms**:",
  "  * Floating labels or side-by-side layouts",
  "  * Colored focus states: \"focus:border-violet-500 focus:ring-4 focus:ring-violet-500/20\"",
  "  * Visual feedback: check marks, error icons, animated validations",
  "",
  "- **Cards**:",
  "  * Not just white rectangles - use gradients, images as backgrounds, overlay text",
  "  * Hover effects: lift, glow, reveal additional content",
  "  * Example: \"bg-gradient-to-br from-violet-50 to-fuchsia-50 rounded-2xl p-8 shadow-xl shadow-violet-500/10 hover:shadow-2xl hover:shadow-violet-500/20 transition-shadow duration-300\"",
  "",
  "- **Containers**:",
  "  * Background variety: gradients, patterns, subtle textures",
  "  * Not just white - consider: slate-50, zinc-100, or gradient backgrounds",
  "  * Strategic use of max-width for reading comfort",
  "",
  "### Examples of Good vs Bad",
  "",
  "BAD (generic):",
  "<div className=\"bg-white rounded-lg shadow-md p-6\">",
  "  <h2 className=\"text-2xl font-bold mb-4\">Title</h2>",
  "  <button className=\"bg-blue-500 text-white px-4 py-2 rounded\">Click</button>",
  "</div>",
  "",
  "GOOD (distinctive):",
  "<div className=\"bg-gradient-to-br from-violet-50 via-white to-fuchsia-50 rounded-2xl shadow-xl shadow-violet-500/10 p-8 ring-1 ring-slate-900/5\">",
  "  <h2 className=\"text-3xl font-black bg-gradient-to-r from-violet-600 to-fuchsia-600 bg-clip-text text-transparent mb-6 tracking-tight\">Title</h2>",
  "  <button className=\"bg-gradient-to-r from-violet-600 to-indigo-600 hover:from-violet-700 hover:to-indigo-700 text-white font-semibold px-6 py-3 rounded-xl shadow-lg shadow-violet-500/50 hover:shadow-xl hover:shadow-violet-600/60 hover:-translate-y-0.5 transition-all duration-300\">Click</button>",
  "</div>",
  "",
  "Remember: Every component should feel crafted, not default. Use Tailwind's full power to create memorable, beautiful interfaces.",
  ""
]

/-- `generationPrompt` itself. -/
def generationPrompt : String := String.intercalate "\n" promptLines

/-! ## Import Resolver and Preview Document Builder

The resolver, module handle manager and preview builder live in
repository code outside the staged files; they are modelled here from
the spec (§4.4, §4.6). -/

/-- A resolution target: an in-memory module handle (identified by the
store path whose compiled text it exposes), a network module address for
a bare package name, or the unresolved placeholder. -/
inductive Resolution
  | handle (path : String)
  | network (pkg : String)
  | unresolvedPh
deriving DecidableEq

/-- Modelled from the spec: the configured alias, "matches the configured
prefix → rewritten to a store-relative path"; the prompt fixes the alias
to the two characters before the first path segment of an aliased
specifier, so `@/components/Calculator` denotes `/components/Calculator`. -/
def rewriteAlias (s : String) : Option String :=
  match s.data with
  | '@' :: '/' :: rest => some ⟨'/' :: rest⟩
  | _ => none

/-- Modelled from the spec: the "fixed set of recognized source
extensions" tried on a local specifier (the repository's projects are
React source files). -/
def sourceExts : List String := [".jsx", ".js", ".tsx", ".ts"]

/-- Modelled from the spec: stylesheet specifiers are "distinguished by a
recognized stylesheet file-extension suffix". -/
def isStylesheet (s : String) : Bool := s.endsWith ".css"

/-- Modelled from the spec: resolution of a store-relative specifier
against the file paths of the Virtual File Store — "the literal path;
the literal path with each of a fixed set of recognized source
extensions appended; the literal path treated as a directory with an
index file under the same extension search. First match wins", else the
unresolved placeholder. -/
def resolveLocal (files : List String) (p : String) : Resolution :=
  if files.contains p then .handle p
  else
    match sourceExts.find? (fun e => files.contains (p ++ e)) with
    | some e => .handle (p ++ e)
    | none =>
      match sourceExts.find? (fun e => files.contains (p ++ "/index" ++ e)) with
      | some e => .handle (p ++ "/index" ++ e)
      | none => .unresolvedPh

/-- Modelled from the spec: classification and resolution of one import
specifier, in the spec's priority order (stylesheets are recorded
separately and are resolved by the same path rules; aliased specifiers
are rewritten then resolved locally; relative/local specifiers resolve
locally; anything else is a bare package name resolved to a network
address). -/
def resolveSpecifier (files : List String) (s : String) : Resolution :=
  match rewriteAlias s with
  | some p => resolveLocal files p
  | none =>
    if s.startsWith "/" || s.startsWith "./" || s.startsWith "../" then
      resolveLocal files s
    else
      .network s

/-- Modelled from the spec: the configured entry path of every project
(the prompt: "Every project must have a root /App.jsx file"). -/
def entryPath : String := "/App.jsx"

/-- Modelled from the spec: the Preview Document Builder's output — a
module-resolution declaration, injected style blocks, a bootstrap
statement importing the entry module, and the error wrapper flag. -/
structure PreviewDoc where
  resolutions : List (String × Resolution)
  styles : List String
  bootstrap : String
  errorWrapper : Bool
deriving DecidableEq

/-- Modelled from the spec: `build(resolutionMap, styleSpecifiers,
entryPath)`; the bootstrap statement imports exactly the entry module. -/
def buildDoc (rmap : List (String × Resolution)) (styles : List String)
    (entry : String) : PreviewDoc :=
  ⟨rmap, styles, "import '" ++ entry ++ "';", true⟩

/-- The two files of the spec's regeneration scenario. -/
def scenarioFiles : List String := ["/App.jsx", "/components/Button.jsx"]

/-! ## Path Normalizer and Virtual File Store

Modelled from the spec (§4.1, §4.2): the normalizer and store code is in
repository files outside the staged ones; every definition below follows
the spec's words. -/

namespace VFS

/-- The normalizer's error kinds (spec §4.1/§7: `PathError`). -/
inductive PathError
  | emptyPath
  | parentTraversal
deriving DecidableEq

/-- Modelled from the spec: whether some piece of the `/`-split of the
input is the parent-traversal segment `..`. -/
def hasDotDotSeg (l : List Char) : Bool :=
  (splitSlashes l).contains ['.', '.']

/-- Modelled from the spec: two consecutive separators nowhere in the
character list. -/
def noDupSlash : List Char → Bool
  | [] => true
  | [_] => true
  | a :: b :: rest => !(a = '/' && b = '/') && noDupSlash (b :: rest)

/-- Modelled from the spec: "collapse consecutive separators to one". -/
def collapseSlashes : List Char → List Char
  | [] => []
  | [c] => [c]
  | a :: b :: rest =>
    if a = '/' && b = '/' then collapseSlashes (b :: rest)
    else a :: collapseSlashes (b :: rest)

/-- Modelled from the spec: "prepend `/` if absent". -/
def prependSlash (l : List Char) : List Char :=
  if l.head? = some '/' then l else '/' :: l

/-- Modelled from the spec: "strip a trailing separator unless the result
is exactly the root". -/
def stripTrailing (l : List Char) : List Char :=
  if l = ['/'] then l
  else if l.getLast? = some '/' then l.dropLast else l

/-- Modelled from the spec: `normalize` on the character list — reject the
empty input; prepend `/` if absent; collapse consecutive separators;
strip a trailing separator unless the result is exactly the root; reject
any `..` segment. -/
def normalizeL (l : List Char) : Except PathError (List Char) :=
  if l = [] then .error .emptyPath
  else
    let l3 := stripTrailing (collapseSlashes (prependSlash l))
    if hasDotDotSeg l3 then .error .parentTraversal else .ok l3

/-- Modelled from the spec: `normalize(raw: string) → Path | PathError`,
pure and deterministic. -/
def normalize (raw : String) : Except PathError String :=
  match normalizeL raw.data with
  | .error e => .error e
  | .ok l => .ok ⟨l⟩

/-- A store node (spec §3): a File with its raw text content, or a
Directory (child names are recoverable from the key set, which the spec
keys by path). -/
inductive Node
  | file (content : String)
  | dir
deriving DecidableEq

/-- The store: an owned collection of nodes keyed by path (spec §9),
keys being the segment lists of normalized paths (the root is `[]`). -/
abbrev Store := List (List String × Node)

/-- "created empty (root directory only)". -/
def emptyStore : Store := [([], .dir)]

/-- The node at a key: first entry with that key. -/
def lookupNode : Store → List String → Option Node
  | [], _ => none
  | e :: s, k => if e.1 = k then some e.2 else lookupNode s k

/-- Remove every entry with the given key. -/
def eraseKey : Store → List String → Store
  | [], _ => []
  | e :: s, k => if e.1 = k then eraseKey s k else e :: eraseKey s k

/-- Set the node at a key (keys stay unique). -/
def setNode (s : Store) (k : List String) (n : Node) : Store :=
  (k, n) :: eraseKey s k

/-- The segment-list key of a normalized path: the nonempty pieces of its
`/`-split. -/
def pathSegs (np : String) : List String :=
  ((splitSlashes np.data).filter (· ≠ [])).map fun l => (⟨l⟩ : String)

/-- Every strict ancestor key of a key, the root included: its takes of
each length below its own. -/
def ancestorKeys (k : List String) : List (List String) :=
  (List.range k.length).map fun i => k.take i

/-- Whether a File node sits at the key. -/
def isFileAt (s : Store) (k : List String) : Bool :=
  match lookupNode s k with
  | some (.file _) => true
  | _ => false

/-- Whether a Directory node sits at the key. -/
def isDirAt (s : Store) (k : List String) : Bool :=
  match lookupNode s k with
  | some .dir => true
  | _ => false

/-- The store's error kinds (spec §7). -/
inductive StoreError
  | pathError
  | notFound
  | conflict
deriving DecidableEq

/-- Modelled from the spec: create each missing ancestor Directory node
(present nodes are left alone). -/
def addDirs : Store → List (List String) → Store
  | s, [] => s
  | s, q :: qs => addDirs (if lookupNode s q = none then setNode s q .dir else s) qs

/-- Modelled from the spec: `write(path, content)` — re-normalize the
path; fail with `ConflictError` if an ancestor segment already exists as
a File (or if the target itself is a Directory, whose kind is stable per
the §3 invariant); otherwise create every missing ancestor Directory and
create or overwrite the File node. -/
def write (s : Store) (p : String) (c : String) : Except StoreError Store :=
  match normalize p with
  | .error _ => .error .pathError
  | .ok np =>
    let k := pathSegs np
    if (ancestorKeys k).any (fun q => isFileAt s q) then .error .conflict
    else if isDirAt s k then .error .conflict
    else .ok (setNode (addDirs s (ancestorKeys k)) k (.file c))

/-- Modelled from the spec: `read(path)` — File content, `NotFoundError`
if absent or a Directory. -/
def read (s : Store) (p : String) : Except StoreError String :=
  match normalize p with
  | .error _ => .error .pathError
  | .ok np =>
    match lookupNode s (pathSegs np) with
    | some (.file c) => .ok c
    | _ => .error .notFound

/-- Modelled from the spec: `remove(path)` — delete the node and every
descendant; `NotFoundError` if absent; deleting the root is rejected. -/
def remove (s : Store) (p : String) : Except StoreError Store :=
  match normalize p with
  | .error _ => .error .pathError
  | .ok np =>
    let k := pathSegs np
    if k = [] then .error .pathError
    else
      match lookupNode s k with
      | none => .error .notFound
      | some _ => .ok (s.filter fun e => !(k.isPrefixOf e.1))

/-- Modelled from the spec: `snapshot()` — the flat mapping of every File
path to its content (directories implied by path prefixes). -/
def snapshot (s : Store) : List (List String × String) :=
  s.filterMap fun e =>
    match e.2 with
    | .file c => some (e.1, c)
    | .dir => none

/-- Lookup in a snapshot mapping. -/
def lookupSnap : List (List String × String) → List String → Option String
  | [], _ => none
  | e :: m, k => if e.1 = k then some e.2 else lookupSnap m k

/-- One `restore` step: recreate a File and its implied ancestor
Directories. -/
def restoreStep (s : Store) (e : List String × String) : Store :=
  setNode (addDirs s (ancestorKeys e.1)) e.1 (.file e.2)

/-- Modelled from the spec: `restore(snapshot)` — replace the store
contents from the flat mapping, rebuilding implied directories. -/
def restore (m : List (List String × String)) : Store :=
  m.foldl restoreStep emptyStore

/-- The keys of a store. -/
def keysOf (s : Store) : List (List String) := s.map (·.1)

/-- Every ancestor key implied by a snapshot mapping. -/
def allAnc (m : List (List String × String)) : List (List String) :=
  m.foldr (fun e r => ancestorKeys e.1 ++ r) []

/-- Store well-formedness (spec §3 invariants, plus the condition the
snapshot round-trip needs): unique keys, the root Directory, every
non-root node's ancestors present as Directories, and every non-root
Directory lying on some File's path. -/
structure WF (s : Store) : Prop where
  nodup : (keysOf s).Nodup
  root : lookupNode s [] = some .dir
  anc : ∀ e ∈ s, ∀ q ∈ ancestorKeys e.1, lookupNode s q = some .dir
  onFilePath : ∀ e ∈ s, e.2 = .dir → e.1 = [] ∨
    ∃ e' ∈ s, e'.2 ≠ .dir ∧ e.1 <+: e'.1 ∧ e.1 ≠ e'.1

/-- The store reached from empty by `write "/a/f" "x"` then
`remove "/a/f"`: its directory `/a` is empty. -/
def emptyDirStore : Store :=
  match write emptyStore "/a/f" "x" with
  | .ok s1 =>
    match remove s1 "/a/f" with
    | .ok s2 => s2
    | .error _ => emptyStore
  | .error _ => emptyStore

/-- A well-formed store with a file `/a/b.txt`, used as a concrete
round-trip instance. -/
def wfDemoStore : Store :=
  [(["a", "b.txt"], .file "x"), (["a"], .dir), ([], .dir)]

end VFS

/-- The store produced by `write emptyStore "/a/b.txt" "x"`. -/
def c10Store : VFS.Store :=
  match VFS.write VFS.emptyStore "/a/b.txt" "x" with
  | .ok s => s
  | .error _ => VFS.emptyStore

example : VFS.normalize "a//b/" = .ok "/a/b" := rfl

example : VFS.normalize "/a/../b" = .error .parentTraversal := rfl

example : VFS.lookupNode VFS.emptyDirStore ["a"] = some .dir := by decide

example : VFS.restore (VFS.snapshot VFS.emptyDirStore) = VFS.emptyStore := by decide

example : VFS.read c10Store "/a/b.txt" = .ok "x" := rfl

/-- The verb part of each `str_replace_editor` label, per command. -/
def verbFor (c : Option JVal) : String :=
  if c = some (.jstr "create") then "Creating "
  else if c = some (.jstr "str_replace") then "Editing "
  else if c = some (.jstr "insert") then "Inserting into "
  else if c = some (.jstr "view") then "Viewing "
  else "Editing "

/-- The icon of each `str_replace_editor` label, per command. -/
def iconForSRE (c : Option JVal) : RIcon :=
  if c = some (.jstr "create") then iconFilePlusGreen
  else if c = some (.jstr "str_replace") then iconFileEditBlue
  else if c = some (.jstr "insert") then iconFileEditBlue
  else if c = some (.jstr "view") then iconEyePurple
  else iconFileEditNeutral

/-- The icon of each `file_manager` label, per command. -/
def iconForFM (c : Option JVal) : RIcon :=
  if c = some (.jstr "delete") then iconTrashRed
  else if c = some (.jstr "rename") then iconFolderEditOrange
  else iconFolderEditNeutral

/-! ## Helper lemmas -/

theorem String.append_ne_empty_of_left {s : String} (t : String) (h : s ≠ "") :
    s ++ t ≠ "" := by
  intro hc
  apply h
  have hd := congrArg String.data hc
  rw [String.data_append] at hd
  rcases List.append_eq_nil.mp hd with ⟨h1, _⟩
  cases s
  simp_all

theorem splitSlashes_ne_nil (l : List Char) : splitSlashes l ≠ [] := by
  cases l with
  | nil => simp [splitSlashes]
  | cons c rest => by_cases h : c = '/' <;> simp [splitSlashes, h]

theorem lastSegment_slash_cons (p : String) :
    lastSegment ("/" ++ p) = lastSegment p := by
  have hdata : ("/" ++ p).data = '/' :: p.data := by
    cases p; rfl
  rcases hsp : splitSlashes p.data with _ | ⟨x, xs⟩
  · exact absurd hsp (splitSlashes_ne_nil p.data)
  · simp [lastSegment, hdata, splitSlashes, hsp, List.getLast?_cons_cons]

theorem getActionMessageE_pnull (tn : String) :
    getActionMessageE tn .pnull = .error .typeError := rfl

theorem getActionMessageE_path_error (tn : String) (pa : ParsedArgs)
    (e : JsError) (h : splitPop pa.path = .error e) :
    getActionMessageE tn (.pobj pa) = .error e := by
  rw [getActionMessageE, h]

theorem getActionMessageE_sre (pa : ParsedArgs) (fn : String)
    (hfn : splitPop pa.path = .ok fn) :
    getActionMessageE "str_replace_editor" (.pobj pa) =
      .ok (iconForSRE pa.command,
        if fn ≠ "" then verbFor pa.command ++ fn
        else verbFor pa.command ++ "file") := by
  rw [getActionMessageE, hfn]
  by_cases h1 : pa.command = some (.jstr "create") <;>
    by_cases h2 : pa.command = some (.jstr "str_replace") <;>
      by_cases h3 : pa.command = some (.jstr "insert") <;>
        by_cases h4 : pa.command = some (.jstr "view") <;>
          simp_all [iconForSRE, verbFor]

theorem getActionMessageE_fm (pa : ParsedArgs) (fn ofn : String)
    (hfn : splitPop pa.path = .ok fn)
    (hofn : splitPop (jsOr pa.old_path pa.path) = .ok ofn) :
    getActionMessageE "file_manager" (.pobj pa) =
      if pa.command = some (.jstr "delete") then
        .ok (iconTrashRed, "Deleting " ++ ofn)
      else if pa.command = some (.jstr "rename") then
        match splitPop pa.new_path with
        | .error e => .error e
        | .ok nfn => .ok (iconFolderEditOrange, "Renaming " ++ ofn ++ " to " ++ nfn)
      else
        .ok (iconFolderEditNeutral,
          if ofn ≠ "" then "Managing " ++ ofn else "Managing files") := by
  rw [getActionMessageE, hfn]
  by_cases h1 : pa.command = some (.jstr "delete") <;>
    by_cases h2 : pa.command = some (.jstr "rename") <;>
      simp_all [hofn]

theorem getActionMessageE_fm_old_error (pa : ParsedArgs) (fn : String)
    (e : JsError) (hfn : splitPop pa.path = .ok fn)
    (hofn : splitPop (jsOr pa.old_path pa.path) = .error e) :
    getActionMessageE "file_manager" (.pobj pa) = .error e := by
  rw [getActionMessageE, hfn]
  simp [hofn]

theorem getActionMessageE_unknown (tn : String) (pa : ParsedArgs)
    (fn : String) (h1 : tn ≠ "str_replace_editor") (h2 : tn ≠ "file_manager")
    (hfn : splitPop pa.path = .ok fn) :
    getActionMessageE tn (.pobj pa) = .ok (iconFileEditNeutral, tn) := by
  rw [getActionMessageE, hfn]
  simp [h1, h2]

theorem verbFor_ne_empty (c : Option JVal) : verbFor c ≠ "" := by
  unfold verbFor
  split
  · decide
  · split
    · decide
    · split
      · decide
      · split <;> decide

theorem iconForSRE_comp_ne_empty (c : Option JVal) : (iconForSRE c).comp ≠ "" := by
  unfold iconForSRE
  split
  · decide
  · split
    · decide
    · split
      · decide
      · split <;> decide

theorem safeField_splitPop (f : Option JVal) (h : safeField f = true) :
    ∃ fn, splitPop f = .ok fn := by
  cases f with
  | none => exact ⟨"", rfl⟩
  | some v => cases v <;> simp_all [safeField, splitPop]

theorem safeField_jsOr (a b : Option JVal) (ha : safeField a = true)
    (hb : safeField b = true) : safeField (jsOr a b) = true := by
  rw [jsOr]
  split <;> assumption

/-! ## The claims -/

/-- C1: For the `str_replace_editor` tool, each command of the fixed
command set maps to a distinct action label naming the target file: with
a string path whose final segment is non-empty, command `create` renders
"Creating <segment>", `str_replace` renders "Editing <segment>",
`insert` renders "Inserting into <segment>", `view` renders
"Viewing <segment>", and any other command renders "Editing <segment>". -/
theorem C1_sre_command_labels (pa : ParsedArgs) (p : String)
    (hpath : pa.path = some (.jstr p)) (hseg : lastSegment p ≠ "") :
    (pa.command = some (.jstr "create") →
      renderedText (toolActionLabelE "str_replace_editor" (.objArg pa)) =
        some ("Creating " ++ lastSegment p)) ∧
    (pa.command = some (.jstr "str_replace") →
      renderedText (toolActionLabelE "str_replace_editor" (.objArg pa)) =
        some ("Editing " ++ lastSegment p)) ∧
    (pa.command = some (.jstr "insert") →
      renderedText (toolActionLabelE "str_replace_editor" (.objArg pa)) =
        some ("Inserting into " ++ lastSegment p)) ∧
    (pa.command = some (.jstr "view") →
      renderedText (toolActionLabelE "str_replace_editor" (.objArg pa)) =
        some ("Viewing " ++ lastSegment p)) ∧
    (∀ c, pa.command = c →
      c ∉ [some (JVal.jstr "create"), some (JVal.jstr "str_replace"),
        some (JVal.jstr "insert"), some (JVal.jstr "view")] →
      renderedText (toolActionLabelE "str_replace_editor" (.objArg pa)) =
        some ("Editing " ++ lastSegment p)) := by
  have hfn : splitPop pa.path = .ok (lastSegment p) := by rw [hpath]; rfl
  have hlab := getActionMessageE_sre pa (lastSegment p) hfn
  refine ⟨fun hc => ?_, fun hc => ?_, fun hc => ?_, fun hc => ?_,
    fun c hc hmem => ?_⟩ <;>
    simp only [toolActionLabelE, parseArgs, hlab, renderedText] <;>
      simp_all [verbFor]

/-- Witness for C1 at a concrete `view` invocation. -/
theorem C1_witness :
    renderedText (toolActionLabelE "str_replace_editor"
      (.objArg ⟨some (.jstr "view"), some (.jstr "/README.md"), none, none⟩)) =
      some ("Viewing " ++ lastSegment "/README.md") :=
  (C1_sre_command_labels ⟨some (.jstr "view"), some (.jstr "/README.md"),
    none, none⟩ "/README.md" rfl (by decide)).2.2.2.1 rfl

/-- C2 counterexample: with command `delete`, an `old_path` of
`/a/x.js` and a `path` of `/b/y.js`, the component renders
"Deleting x.js" — the final segment of `old_path` — not
"Deleting y.js", the final segment of `path` the claim requires. -/
theorem C2_counterexample :
    renderedText (toolActionLabelE "file_manager"
      (.objArg ⟨some (.jstr "delete"), some (.jstr "/b/y.js"),
        some (.jstr "/a/x.js"), none⟩)) = some "Deleting x.js" ∧
    renderedText (toolActionLabelE "file_manager"
      (.objArg ⟨some (.jstr "delete"), some (.jstr "/b/y.js"),
        some (.jstr "/a/x.js"), none⟩)) ≠ some "Deleting y.js" := by
  refine ⟨by decide, ?_⟩
  decide

/-- C2 (amended): for the `file_manager` tool, on args whose relevant
fields do not make the component throw (their splits succeed): `delete`
renders "Deleting <final segment of old_path, or of path when old_path
is absent, null or empty>"; `rename` renders "Renaming <that same
segment> to <final segment of new_path>"; any other command renders
"Managing <that same segment>" when it is non-empty and
"Managing files" otherwise. -/
theorem C2_fm_amended (pa : ParsedArgs) (fn ofn : String)
    (hfn : splitPop pa.path = .ok fn)
    (hofn : splitPop (jsOr pa.old_path pa.path) = .ok ofn) :
    (pa.command = some (.jstr "delete") →
      renderedText (toolActionLabelE "file_manager" (.objArg pa)) =
        some ("Deleting " ++ ofn)) ∧
    (∀ nfn, splitPop pa.new_path = .ok nfn →
      pa.command = some (.jstr "rename") →
      renderedText (toolActionLabelE "file_manager" (.objArg pa)) =
        some ("Renaming " ++ ofn ++ " to " ++ nfn)) ∧
    (∀ c, pa.command = c →
      c ∉ [some (JVal.jstr "delete"), some (JVal.jstr "rename")] →
      (ofn ≠ "" →
        renderedText (toolActionLabelE "file_manager" (.objArg pa)) =
          some ("Managing " ++ ofn)) ∧
      (ofn = "" →
        renderedText (toolActionLabelE "file_manager" (.objArg pa)) =
          some "Managing files")) := by
  have hlab := getActionMessageE_fm pa fn ofn hfn hofn
  refine ⟨fun hc => ?_, fun nfn hnfn hc => ?_,
    fun c hc hmem => ⟨fun hof => ?_, fun hof => ?_⟩⟩ <;>
    simp only [toolActionLabelE, parseArgs, hlab, renderedText] <;>
      simp_all

/-- Witness for C2's amended claim at a concrete `rename` invocation. -/
theorem C2_witness :
    renderedText (toolActionLabelE "file_manager"
      (.objArg ⟨some (.jstr "rename"), none, some (.jstr "/components/Button.jsx"),
        some (.jstr "/components/ActionButton.jsx")⟩)) =
      some ("Renaming " ++ lastSegment "/components/Button.jsx" ++ " to " ++
        lastSegment "/components/ActionButton.jsx") :=
  (C2_fm_amended ⟨some (.jstr "rename"), none, some (.jstr "/components/Button.jsx"),
    some (.jstr "/components/ActionButton.jsx")⟩ ""
    (lastSegment "/components/Button.jsx") rfl rfl).2.1
    (lastSegment "/components/ActionButton.jsx") rfl rfl

/-- C3 counterexample: the component is not total and can render blank
text — `args = "null"` parses to JSON `null` and the `parsedArgs.path`
access throws a TypeError; an object args with a non-null non-string
`path` makes `.split` throw; and the empty tool name renders the empty
string as its text. Each refutes "never throws ... always ... a
non-empty text". -/
theorem C3_counterexample :
    toolActionLabelE "str_replace_editor" (.strArg "null" (some .pnull)) =
      .error .typeError ∧
    toolActionLabelE "str_replace_editor"
      (.objArg ⟨none, some .jtruthy, none, none⟩) = .error .typeError ∧
    toolActionLabelE "" ArgsInput.absent = .ok (iconFileEditNeutral, "") := by
  exact ⟨rfl, rfl, rfl⟩

/-- C3 (amended): a JSON parse failure is absorbed into the empty
argument object; the component throws a TypeError when the parsed args
value is JSON `null` (and only then reaches no branch), while with an
object whose `path`, `old_path` and `new_path` fields are each absent,
null or a string it never throws; and whenever it renders, the icon is
one of the five components and the text is non-empty for every non-empty
tool name. -/
theorem C3_amended :
    (∀ raw : String, parseArgs (.strArg raw none) = .pobj emptyArgs) ∧
    (∀ (tn : String) (args : ArgsInput), parseArgs args = .pnull →
      toolActionLabelE tn args = .error .typeError) ∧
    (∀ (tn : String) (args : ArgsInput) (out : RIcon × String),
      toolActionLabelE tn args = .ok out →
      out.1.comp ≠ "" ∧ (tn ≠ "" → out.2 ≠ "")) ∧
    (∀ (tn : String) (args : ArgsInput) (pa : ParsedArgs),
      parseArgs args = .pobj pa → safeField pa.path = true →
      safeField pa.old_path = true → safeField pa.new_path = true →
      ∃ out, toolActionLabelE tn args = .ok out) := by
  refine ⟨?_, ?_, ?_, ?_⟩
  · intro raw
    by_cases h : raw = "" <;> simp [parseArgs, h]
  · intro tn args hp
    rw [toolActionLabelE, hp]
    rfl
  · intro tn args out hout
    rw [toolActionLabelE] at hout
    cases hparse : parseArgs args with
    | pnull => rw [hparse] at hout; cases hout
    | pobj pa =>
      rw [hparse] at hout
      cases hsp : splitPop pa.path with
      | error e =>
        rw [getActionMessageE_path_error tn pa e hsp] at hout
        cases hout
      | ok fn =>
        by_cases h1 : tn = "str_replace_editor"
        · subst h1
          rw [getActionMessageE_sre pa fn hsp] at hout
          injection hout with hout
          subst hout
          refine ⟨iconForSRE_comp_ne_empty pa.command, fun _ => ?_⟩
          split
          · exact String.append_ne_empty_of_left _ (verbFor_ne_empty pa.command)
          · exact String.append_ne_empty_of_left _ (verbFor_ne_empty pa.command)
        · by_cases h2 : tn = "file_manager"
          · subst h2
            cases hso : splitPop (jsOr pa.old_path pa.path) with
            | error e =>
              rw [getActionMessageE_fm_old_error pa fn e hsp hso] at hout
              cases hout
            | ok ofn =>
              rw [getActionMessageE_fm pa fn ofn hsp hso] at hout
              split at hout
              · injection hout with hout
                subst hout
                exact ⟨(by decide : iconTrashRed.comp ≠ ""), fun _ =>
                  String.append_ne_empty_of_left _ (by decide)⟩
              · split at hout
                · split at hout
                  · cases hout
                  · injection hout with hout
                    subst hout
                    exact ⟨(by decide : iconFolderEditOrange.comp ≠ ""), fun _ =>
                      String.append_ne_empty_of_left _
                        (String.append_ne_empty_of_left _
                          (String.append_ne_empty_of_left _ (by decide)))⟩
                · injection hout with hout
                  subst hout
                  refine ⟨(by decide : iconFolderEditNeutral.comp ≠ ""), fun _ => ?_⟩
                  split
                  · exact String.append_ne_empty_of_left _ (by decide)
                  · decide
          · rw [getActionMessageE_unknown tn pa fn h1 h2 hsp] at hout
            injection hout with hout
            subst hout
            exact ⟨(by decide : iconFileEditNeutral.comp ≠ ""), fun htn => htn⟩
  · intro tn args pa hparse hsp hso hsn
    rw [toolActionLabelE, hparse]
    rcases safeField_splitPop pa.path hsp with ⟨fn, hfn⟩
    by_cases h1 : tn = "str_replace_editor"
    · subst h1
      exact ⟨_, getActionMessageE_sre pa fn hfn⟩
    · by_cases h2 : tn = "file_manager"
      · subst h2
        rcases safeField_splitPop (jsOr pa.old_path pa.path)
          (safeField_jsOr _ _ hso hsp) with ⟨ofn, hofn⟩
        rcases safeField_splitPop pa.new_path hsn with ⟨nfn, hnfn⟩
        rw [getActionMessageE_fm pa fn ofn hfn hofn]
        split
        · exact ⟨_, rfl⟩
        · split
          · rw [hnfn]
            exact ⟨_, rfl⟩
          · exact ⟨_, rfl⟩
      · exact ⟨_, getActionMessageE_unknown tn pa fn h1 h2 hfn⟩

/-- Witness for C3's amended claim: a parse failure gives the empty
object; `"null"` args throw; a rendered label has a named icon and
non-empty text; safe fields never throw. -/
theorem C3_witness :
    parseArgs (.strArg "invalid json" none) = .pobj emptyArgs ∧
    toolActionLabelE "str_replace_editor" (.strArg "null" (some .pnull)) =
      .error .typeError ∧
    ((iconFileEditNeutral, "Editing file").1.comp ≠ "" ∧
      ("str_replace_editor" ≠ "" → (iconFileEditNeutral, "Editing file").2 ≠ "")) ∧
    (∃ out, toolActionLabelE "file_manager"
      (.objArg ⟨some (.jstr "delete"), some (.jstr "/a/b.txt"), none, none⟩) =
      .ok out) :=
  ⟨C3_amended.1 "invalid json",
    C3_amended.2.1 "str_replace_editor" (.strArg "null" (some .pnull)) rfl,
    C3_amended.2.2.1 "str_replace_editor" ArgsInput.absent
      (iconFileEditNeutral, "Editing file") rfl,
    C3_amended.2.2.2 "file_manager"
      (.objArg ⟨some (.jstr "delete"), some (.jstr "/a/b.txt"), none, none⟩)
      ⟨some (.jstr "delete"), some (.jstr "/a/b.txt"), none, none⟩
      rfl rfl rfl rfl⟩

/-- C6 counterexample: for the unknown tool name `unknown_tool` the
component does not render the tool name on every args value — `args =
"null"` (JSON `null`) and an object args with `path: 123` both throw a
TypeError while computing the file name, before the fallback branch. -/
theorem C6_counterexample :
    toolActionLabelE "unknown_tool" (.strArg "null" (some .pnull)) =
      .error .typeError ∧
    toolActionLabelE "unknown_tool"
      (.objArg ⟨none, some .jtruthy, none, none⟩) = .error .typeError ∧
    renderedText (toolActionLabelE "unknown_tool"
      (.strArg "null" (some .pnull))) ≠ some "unknown_tool" := by
  refine ⟨rfl, rfl, ?_⟩
  decide

/-- C6 (amended): for every tool name other than `str_replace_editor`
and `file_manager`, the component renders the tool name itself, verbatim,
whenever evaluating the args does not throw — and it throws a TypeError,
reaching no fallback, exactly in the two crash cases: the parsed args
value is JSON `null`, or the `path` field holds a non-null non-string
value. -/
theorem C6_fallback_amended (tn : String) (args : ArgsInput)
    (h1 : tn ≠ "str_replace_editor") (h2 : tn ≠ "file_manager") :
    (∀ pa fn, parseArgs args = .pobj pa → splitPop pa.path = .ok fn →
      toolActionLabelE tn args = .ok (iconFileEditNeutral, tn)) ∧
    (parseArgs args = .pnull → toolActionLabelE tn args = .error .typeError) ∧
    (∀ pa e, parseArgs args = .pobj pa → splitPop pa.path = .error e →
      toolActionLabelE tn args = .error e) := by
  refine ⟨fun pa fn hparse hfn => ?_, fun hparse => ?_,
    fun pa e hparse hsp => ?_⟩
  · rw [toolActionLabelE, hparse]
    exact getActionMessageE_unknown tn pa fn h1 h2 hfn
  · rw [toolActionLabelE, hparse]
    rfl
  · rw [toolActionLabelE, hparse]
    exact getActionMessageE_path_error tn pa e hsp

/-- Witness for C6's amended claim at the test file's `unknown_tool`
invocation (rendering) and at the throwing `"null"` args. -/
theorem C6_witness :
    toolActionLabelE "unknown_tool"
      (.objArg ⟨some (.jstr "test"), some (.jstr "/file.js"), none, none⟩) =
      .ok (iconFileEditNeutral, "unknown_tool") ∧
    toolActionLabelE "unknown_tool" (.strArg "null" (some .pnull)) =
      .error .typeError :=
  ⟨(C6_fallback_amended "unknown_tool"
      (.objArg ⟨some (.jstr "test"), some (.jstr "/file.js"), none, none⟩)
      (by decide) (by decide)).1
      ⟨some (.jstr "test"), some (.jstr "/file.js"), none, none⟩
      (lastSegment "/file.js") rfl rfl,
    (C6_fallback_amended "unknown_tool" (.strArg "null" (some .pnull))
      (by decide) (by decide)).2.1 rfl⟩

/-- C7: for every `str_replace_editor` command the displayed file name is
exactly the substring of the string `args.path` after its last `/` (a
leading slash never changes it), and with the path absent or its final
segment empty the label falls back to its generic no-file-name wording
(`verbFor` + "file"). -/
theorem C7_last_segment_naming :
    (∀ pa : ParsedArgs,
      (pa.path = none →
        renderedText (toolActionLabelE "str_replace_editor" (.objArg pa)) =
          some (verbFor pa.command ++ "file")) ∧
      (∀ p, pa.path = some (.jstr p) → lastSegment p = "" →
        renderedText (toolActionLabelE "str_replace_editor" (.objArg pa)) =
          some (verbFor pa.command ++ "file")) ∧
      (∀ p, pa.path = some (.jstr p) → lastSegment p ≠ "" →
        renderedText (toolActionLabelE "str_replace_editor" (.objArg pa)) =
          some (verbFor pa.command ++ lastSegment p))) ∧
    (∀ p : String, lastSegment ("/" ++ p) = lastSegment p) := by
  refine ⟨fun pa => ?_, lastSegment_slash_cons⟩
  refine ⟨fun hp => ?_, fun p hp hseg => ?_, fun p hp hseg => ?_⟩
  · have hfn : splitPop pa.path = .ok "" := by rw [hp]; rfl
    have hlab := getActionMessageE_sre pa "" hfn
    simp [toolActionLabelE, parseArgs, hlab, renderedText]
  · have hfn : splitPop pa.path = .ok (lastSegment p) := by rw [hp]; rfl
    have hlab := getActionMessageE_sre pa (lastSegment p) hfn
    simp [toolActionLabelE, parseArgs, hlab, renderedText, hseg]
  · have hfn : splitPop pa.path = .ok (lastSegment p) := by rw [hp]; rfl
    have hlab := getActionMessageE_sre pa (lastSegment p) hfn
    simp [toolActionLabelE, parseArgs, hlab, renderedText, hseg]

/-- Witness for C7: a nested path keeps only its final segment, and the
no-slash form of the same path yields the same segment. -/
theorem C7_witness :
    renderedText (toolActionLabelE "str_replace_editor"
      (.objArg ⟨some (.jstr "create"), some (.jstr "/src/components/ui/Button.tsx"),
        none, none⟩)) =
      some (verbFor (some (.jstr "create")) ++
        lastSegment "/src/components/ui/Button.tsx") ∧
    lastSegment ("/" ++ "src/components/ui/Button.tsx") =
      lastSegment "src/components/ui/Button.tsx" :=
  ⟨(C7_last_segment_naming.1 ⟨some (.jstr "create"),
      some (.jstr "/src/components/ui/Button.tsx"), none, none⟩).2.2
      "/src/components/ui/Button.tsx" rfl (by decide),
    C7_last_segment_naming.2 "src/components/ui/Button.tsx"⟩

/-- C4: the configured alias for project-root imports is `@/` — the
generation prompt's rule lines require it for all non-library imports
and give the `@/components/Calculator` example; an aliased specifier
`@/…rest` denotes the store-relative path `/…rest`; and in the spec's
regeneration scenario the aliased specifier `@/components/Button`
resolves to the Button module's handle, not a placeholder. -/
theorem C4_alias_at_slash :
    "* All imports for non-library files (like React) should use an import alias of '@/'."
      ∈ promptLines ∧
    "  * For example, if you create a file at /components/Calculator.jsx, you'd import it into another file with '@/components/Calculator'"
      ∈ promptLines ∧
    (∀ rest : List Char,
      rewriteAlias ⟨'@' :: '/' :: rest⟩ = some ⟨'/' :: rest⟩) ∧
    rewriteAlias "@/components/Calculator" = some "/components/Calculator" ∧
    resolveSpecifier scenarioFiles "@/components/Button" =
      .handle "/components/Button.jsx" ∧
    resolveSpecifier scenarioFiles "@/components/Button" ≠ .unresolvedPh := by
  refine ⟨by decide, by decide, fun rest => rfl, rfl, rfl, by decide⟩

/-- C5: the configured entry path of every project is the root file
`/App.jsx`, which must create and export a React component as its
default export (the prompt's rule lines); no HTML file is ever part of a
project (the prompt forbids creating them); and the preview document's
bootstrap statement imports exactly this entry module. -/
theorem C5_entry_app_jsx :
    entryPath = "/App.jsx" ∧
    "* Every project must have a root /App.jsx file that creates and exports a React component as its default export"
      ∈ promptLines ∧
    "* Do not create any HTML files, they are not used. The App.jsx file is the entrypoint for the app."
      ∈ promptLines ∧
    (∀ (rmap : List (String × Resolution)) (styles : List String),
      (buildDoc rmap styles entryPath).bootstrap = "import '/App.jsx';") := by
  refine ⟨rfl, by decide, by decide, fun rmap styles => rfl⟩

namespace VFS

theorem collapseSlashes_head (l : List Char) :
    (collapseSlashes l).head? = l.head? := by
  induction l using collapseSlashes.induct with
  | case1 => rfl
  | case2 c => rfl
  | case3 a b rest h ih =>
    rw [collapseSlashes, if_pos h, ih]
    rcases Bool.and_eq_true_iff.mp h with ⟨ha, hb⟩
    simp_all
  | case4 a b rest h ih =>
    rw [collapseSlashes, if_neg h]
    rfl

theorem noDupSlash_cons_of_head (a b : Char) (l : List Char)
    (h : l.head? = some b) :
    noDupSlash (a :: l) = (!(a = '/' && b = '/') && noDupSlash l) := by
  cases l with
  | nil => cases h
  | cons x xs =>
    rw [noDupSlash]
    simp_all

theorem noDupSlash_collapse (l : List Char) :
    noDupSlash (collapseSlashes l) = true := by
  induction l using collapseSlashes.induct with
  | case1 => rfl
  | case2 c => rfl
  | case3 a b rest h ih => rw [collapseSlashes, if_pos h]; exact ih
  | case4 a b rest h ih =>
    rw [collapseSlashes, if_neg h]
    have hh : (collapseSlashes (b :: rest)).head? = some b := by
      rw [collapseSlashes_head]; rfl
    rw [noDupSlash_cons_of_head a b _ hh, ih]
    simp_all
    tauto

theorem collapse_of_noDup (l : List Char) (h : noDupSlash l = true) :
    collapseSlashes l = l := by
  induction l using collapseSlashes.induct with
  | case1 => rfl
  | case2 c => rfl
  | case3 a b rest hc ih =>
    rw [noDupSlash] at h
    simp_all
  | case4 a b rest hc ih =>
    rw [noDupSlash] at h
    rw [collapseSlashes, if_neg hc]
    rcases Bool.and_eq_true_iff.mp h with ⟨_, h2⟩
    rw [ih h2]

theorem noDupSlash_append_left (xs ys : List Char)
    (h : noDupSlash (xs ++ ys) = true) : noDupSlash xs = true := by
  induction xs with
  | nil => rfl
  | cons x xs ih =>
    cases xs with
    | nil => rfl
    | cons y zs =>
      simp only [List.cons_append, noDupSlash] at h
      rcases Bool.and_eq_true_iff.mp h with ⟨h1, h2⟩
      have h2' : noDupSlash ((y :: zs) ++ ys) = true := by
        simpa [List.cons_append] using h2
      simp only [noDupSlash, ih h2', h1]
      rfl

theorem getLast?_ne_slash_of_noDup_concat (m : List Char)
    (h : noDupSlash (m ++ ['/']) = true) : m.getLast? ≠ some '/' := by
  induction m with
  | nil => simp
  | cons x xs ih =>
    cases xs with
    | nil =>
      simp only [List.cons_append, List.nil_append, noDupSlash] at h
      simp_all
    | cons y zs =>
      simp only [List.cons_append, noDupSlash] at h
      rcases Bool.and_eq_true_iff.mp h with ⟨_, h2⟩
      have := ih (by simpa [List.cons_append] using h2)
      simp_all [List.getLast?_cons_cons]

end VFS

namespace VFS

theorem prependSlash_head (l : List Char) :
    (prependSlash l).head? = some '/' := by
  unfold prependSlash
  split
  · assumption
  · rfl

theorem stripTrailing_props (l : List Char) (hnd : noDupSlash l = true)
    (hh : l.head? = some '/') :
    (stripTrailing l).head? = some '/' ∧
    noDupSlash (stripTrailing l) = true ∧
    (stripTrailing l = ['/'] ∨ (stripTrailing l).getLast? ≠ some '/') := by
  unfold stripTrailing
  split
  · rename_i hroot
    exact ⟨hh, hnd, Or.inl hroot⟩
  · rename_i hroot
    split
    · rename_i hlast
      rcases List.getLast?_eq_some_iff.mp hlast with ⟨m, hm⟩
      subst hm
      have hmne : m ≠ [] := by
        rintro rfl
        exact hroot rfl
      rcases List.exists_cons_of_ne_nil hmne with ⟨x, xs, hx⟩
      subst hx
      refine ⟨?_, ?_, Or.inr ?_⟩
      · rw [List.dropLast_concat]
        simpa using hh
      · rw [List.dropLast_concat]
        exact noDupSlash_append_left _ _ hnd
      · rw [List.dropLast_concat]
        exact getLast?_ne_slash_of_noDup_concat _ hnd
    · exact ⟨hh, hnd, Or.inr (by assumption)⟩

theorem normalizeL_fix (m : List Char) (hh : m.head? = some '/')
    (hc : collapseSlashes m = m)
    (hl : m = ['/'] ∨ m.getLast? ≠ some '/')
    (hd : hasDotDotSeg m = false) : normalizeL m = .ok m := by
  have hne : m ≠ [] := by
    rintro rfl
    cases hh
  have hps : prependSlash m = m := by
    unfold prependSlash
    rw [if_pos hh]
  rw [normalizeL, if_neg hne]
  simp only [hps, hc]
  have hst : stripTrailing m = m := by
    unfold stripTrailing
    rcases hl with hroot | hlast
    · rw [if_pos hroot]
    · have hroot : m ≠ ['/'] := by
        rintro rfl
        exact hlast rfl
      rw [if_neg hroot, if_neg hlast]
  simp only [hst, hd]
  rfl

theorem normalizeL_idem (l m : List Char) (h : normalizeL l = .ok m) :
    normalizeL m = .ok m := by
  rw [normalizeL] at h
  split at h
  · cases h
  · simp only [] at h
    split at h
    · cases h
    · rename_i hne hdots
      injection h with h
      subst h
      have hnd : noDupSlash (collapseSlashes (prependSlash l)) = true :=
        noDupSlash_collapse _
      have hh : (collapseSlashes (prependSlash l)).head? = some '/' := by
        rw [collapseSlashes_head]
        exact prependSlash_head l
      rcases stripTrailing_props _ hnd hh with ⟨ph, pnd, plast⟩
      exact normalizeL_fix _ ph (collapse_of_noDup _ pnd) plast
        (by simpa using hdots)

end VFS

/-- C8: the path normalizer is idempotent — whenever `normalize p`
succeeds with the canonical path `q`, `normalize q` succeeds and returns
`q` unchanged (`normalize` being a pure function of its argument applying
the spec's rules in order). -/
theorem C8_normalize_idempotent (p q : String)
    (h : VFS.normalize p = .ok q) : VFS.normalize q = .ok q := by
  unfold VFS.normalize at h ⊢
  cases hn : VFS.normalizeL p.data with
  | error e => rw [hn] at h; cases h
  | ok m =>
    rw [hn] at h
    injection h with h
    subst h
    rw [VFS.normalizeL_idem p.data m hn]

/-- Witness for C8 at the concrete raw path `a//b/`. -/
theorem C8_witness : VFS.normalize "/a/b" = .ok "/a/b" :=
  C8_normalize_idempotent "a//b/" "/a/b" rfl

namespace VFS

theorem lookupNode_eraseKey (s : Store) (k k' : List String) :
    lookupNode (eraseKey s k) k' = if k' = k then none else lookupNode s k' := by
  induction s with
  | nil => split <;> rfl
  | cons e s ih =>
    rw [eraseKey]
    split
    · rename_i he
      rw [ih]
      by_cases hk : k' = k
      · simp [hk]
      · simp only [if_neg hk, lookupNode]
        rw [if_neg (by rw [he]; exact fun hc => hk hc.symm)]
    · rename_i he
      rw [lookupNode, ih]
      by_cases hk : k' = k
      · subst hk
        rw [if_pos rfl, if_pos rfl, if_neg (by exact fun hc => he hc)]
      · simp only [if_neg hk, lookupNode]

theorem lookupNode_setNode (s : Store) (k : List String) (n : Node)
    (k' : List String) :
    lookupNode (setNode s k n) k' = if k' = k then some n else lookupNode s k' := by
  rw [setNode, lookupNode, lookupNode_eraseKey]
  by_cases hk : k' = k
  · simp [hk]
  · rw [if_neg hk, if_neg (fun hc => hk hc.symm), if_neg hk]

theorem lookupNode_addDirs (s : Store) (qs : List (List String))
    (k : List String) :
    lookupNode (addDirs s qs) k =
      if k ∈ qs ∧ lookupNode s k = none then some .dir else lookupNode s k := by
  induction qs generalizing s with
  | nil => simp [addDirs]
  | cons q qs ih =>
    rw [addDirs, ih]
    by_cases hq : lookupNode s q = none
    · rw [if_pos hq]
      by_cases hk : k = q
      · subst hk
        simp [lookupNode_setNode, hq]
      · simp [lookupNode_setNode, hk]
    · rw [if_neg hq]
      by_cases hk : k = q
      · subst hk
        simp [hq]
      · simp [hk]

theorem mem_ancestorKeys_length (k q : List String)
    (h : q ∈ ancestorKeys k) : q.length < k.length := by
  simp only [ancestorKeys, List.mem_map, List.mem_range] at h
  rcases h with ⟨i, hi, rfl⟩
  simp only [List.length_take]
  omega

end VFS

/-- C10: whenever `write p c` succeeds on a store, the normalized path
reads back exactly `c`, and every strict ancestor of the written path
(the root included) is a Directory node of the resulting store. -/
theorem C10_write_then_read (s : VFS.Store) (p c : String) (s' : VFS.Store)
    (h : VFS.write s p c = .ok s') :
    ∃ np, VFS.normalize p = .ok np ∧ VFS.read s' p = .ok c ∧
      ∀ q ∈ VFS.ancestorKeys (VFS.pathSegs np),
        VFS.lookupNode s' q = some .dir := by
  rw [VFS.write] at h
  cases hn : VFS.normalize p with
  | error e => rw [hn] at h; cases h
  | ok np =>
    rw [hn] at h
    simp only [] at h
    split at h
    · cases h
    · split at h
      · cases h
      · rename_i hfiles hdir
        injection h with h
        subst h
        refine ⟨np, rfl, ?_, ?_⟩
        · simp [VFS.read, hn, VFS.lookupNode_setNode]
        · intro q hq
          have hlen := VFS.mem_ancestorKeys_length _ _ hq
          have hqk : q ≠ VFS.pathSegs np := fun hc => by
            rw [hc] at hlen
            omega
          rw [VFS.lookupNode_setNode, if_neg hqk, VFS.lookupNode_addDirs]
          have hnotfile : VFS.isFileAt s q = false := by
            by_contra hc
            exact hfiles (List.any_eq_true.mpr ⟨q, hq, by simp_all⟩)
          cases hlq : VFS.lookupNode s q with
          | none => rw [if_pos ⟨hq, rfl⟩]
          | some n =>
            rw [if_neg (by simp [hlq])]
            cases n with
            | file fc =>
              rw [VFS.isFileAt, hlq] at hnotfile
              cases hnotfile
            | dir => rfl

/-- Witness for C10: writing `/a/b.txt` into the empty store. -/
theorem C10_witness :
    ∃ np, VFS.normalize "/a/b.txt" = .ok np ∧
      VFS.read c10Store "/a/b.txt" = .ok "x" ∧
      ∀ q ∈ VFS.ancestorKeys (VFS.pathSegs np),
        VFS.lookupNode c10Store q = some .dir :=
  C10_write_then_read VFS.emptyStore "/a/b.txt" "x" c10Store rfl

namespace VFS

theorem allAnc_cons (e : List String × String) (m : List (List String × String)) :
    allAnc (e :: m) = ancestorKeys e.1 ++ allAnc m := rfl

theorem mem_allAnc_iff (m : List (List String × String)) (k : List String) :
    k ∈ allAnc m ↔ ∃ e ∈ m, k ∈ ancestorKeys e.1 := by
  induction m with
  | nil => simp [allAnc]
  | cons e m ih => simp [allAnc_cons, ih]

theorem lookupSnap_none_of_not_mem (m : List (List String × String))
    (k : List String) (h : k ∉ m.map (·.1)) : lookupSnap m k = none := by
  induction m with
  | nil => rfl
  | cons e m ih =>
    rw [lookupSnap, if_neg (by simp_all; exact fun hc => (h.1 hc.symm).elim)]
    exact ih (by simp_all)

theorem lookupNode_restoreStep (acc : Store) (e : List String × String)
    (k : List String) :
    lookupNode (restoreStep acc e) k =
      if k = e.1 then some (.file e.2)
      else if k ∈ ancestorKeys e.1 ∧ lookupNode acc k = none then some .dir
      else lookupNode acc k := by
  rw [restoreStep, lookupNode_setNode, lookupNode_addDirs]

theorem lookupNode_restore_foldl (m : List (List String × String))
    (acc : Store) (k : List String) (hnd : (m.map (·.1)).Nodup) :
    lookupNode (m.foldl restoreStep acc) k =
      match lookupSnap m k with
      | some c => some (.file c)
      | none =>
        if k ∈ allAnc m ∧ lookupNode acc k = none then some .dir
        else lookupNode acc k := by
  induction m generalizing acc with
  | nil =>
    rw [List.foldl_nil]
    show lookupNode acc k =
      if k ∈ ([] : List (List String)) ∧ lookupNode acc k = none then some Node.dir
      else lookupNode acc k
    rw [if_neg (fun hc => List.not_mem_nil k hc.1)]
  | cons e m ih =>
    rw [List.foldl_cons, ih _ (List.nodup_cons.mp hnd).2]
    have hkeynotin : e.1 ∉ m.map (·.1) := (List.nodup_cons.mp hnd).1
    by_cases hk : k = e.1
    · have hs1 : lookupSnap (e :: m) k = some e.2 := by
        rw [lookupSnap]
        exact if_pos hk.symm
      have hs0 : lookupSnap m k = none := by
        apply lookupSnap_none_of_not_mem
        rw [hk]
        exact hkeynotin
      have hr : lookupNode (restoreStep acc e) k = some (.file e.2) := by
        rw [lookupNode_restoreStep]
        exact if_pos hk
      rw [hs0, hs1]
      show (if k ∈ allAnc m ∧ lookupNode (restoreStep acc e) k = none
          then some Node.dir else lookupNode (restoreStep acc e) k) =
        some (Node.file e.2)
      rw [hr, if_neg (fun hc => Option.noConfusion hc.2)]
    · have hscons : lookupSnap (e :: m) k = lookupSnap m k := by
        rw [lookupSnap]
        exact if_neg (fun hc => hk hc.symm)
      rw [hscons]
      cases hsnap : lookupSnap m k with
      | some c => rfl
      | none =>
        show (if k ∈ allAnc m ∧ lookupNode (restoreStep acc e) k = none
            then some Node.dir else lookupNode (restoreStep acc e) k) =
          if k ∈ allAnc (e :: m) ∧ lookupNode acc k = none then some Node.dir
          else lookupNode acc k
        rw [lookupNode_restoreStep, if_neg hk]
        by_cases h1 : lookupNode acc k = none
        · by_cases h2 : k ∈ ancestorKeys e.1
          · rw [if_pos (And.intro h2 h1)]
            rw [if_neg (fun hc =>
              Option.noConfusion (hc.2 : (some Node.dir : Option Node) = none))]
            have hmemcons : k ∈ allAnc (e :: m) := by
              rw [allAnc_cons]
              exact List.mem_append.mpr (Or.inl h2)
            rw [if_pos (And.intro hmemcons h1)]
          · rw [if_neg (fun hc : k ∈ ancestorKeys e.1 ∧ lookupNode acc k = none =>
              h2 hc.1)]
            by_cases h3 : k ∈ allAnc m
            · rw [if_pos (And.intro h3 h1)]
              have hmemcons : k ∈ allAnc (e :: m) := by
                rw [allAnc_cons]
                exact List.mem_append.mpr (Or.inr h3)
              rw [if_pos (And.intro hmemcons h1)]
            · rw [if_neg (fun hc : k ∈ allAnc m ∧ lookupNode acc k = none =>
                h3 hc.1)]
              have hncons : ¬(k ∈ allAnc (e :: m) ∧ lookupNode acc k = none) := by
                intro hc
                have hm := hc.1
                rw [allAnc_cons] at hm
                rcases List.mem_append.mp hm with hmm | hmm
                exacts [h2 hmm, h3 hmm]
              rw [if_neg hncons]
        · rw [if_neg (fun hc : k ∈ ancestorKeys e.1 ∧ lookupNode acc k = none =>
            h1 hc.2)]
          rw [if_neg (fun hc : k ∈ allAnc m ∧ lookupNode acc k = none =>
            h1 hc.2)]
          rw [if_neg (fun hc : k ∈ allAnc (e :: m) ∧ lookupNode acc k = none =>
            h1 hc.2)]

theorem snapshot_keys_sublist (s : Store) :
    ((snapshot s).map (·.1)).Sublist (keysOf s) := by
  induction s with
  | nil => exact List.Sublist.refl _
  | cons e s ih =>
    cases he : e.2 with
    | file c =>
      simp only [snapshot, List.filterMap_cons, he, keysOf, List.map_cons]
      exact List.Sublist.cons₂ _ ih
    | dir =>
      simp only [snapshot, List.filterMap_cons, he, keysOf, List.map_cons]
      exact List.Sublist.cons _ ih

theorem lookupSnap_snapshot (s : Store) (hnd : (keysOf s).Nodup)
    (k : List String) :
    lookupSnap (snapshot s) k =
      match lookupNode s k with
      | some (.file c) => some c
      | _ => none := by
  induction s with
  | nil => rfl
  | cons e s ih =>
    have hnd' : (keysOf s).Nodup := (List.nodup_cons.mp hnd).2
    have hnotin : e.1 ∉ keysOf s := (List.nodup_cons.mp hnd).1
    cases he : e.2 with
    | file c =>
      have hsnapcons : snapshot (e :: s) = (e.1, c) :: snapshot s := by
        simp [snapshot, List.filterMap_cons, he]
      rw [hsnapcons]
      by_cases hk : k = e.1
      · rw [lookupSnap, if_pos hk.symm, lookupNode, if_pos hk.symm, he]
      · rw [lookupSnap, if_neg (fun hc => hk hc.symm), lookupNode,
          if_neg (fun hc => hk hc.symm)]
        exact ih hnd'
    | dir =>
      have hsnapcons : snapshot (e :: s) = snapshot s := by
        simp [snapshot, List.filterMap_cons, he]
      rw [hsnapcons]
      by_cases hk : k = e.1
      · have hnone : lookupSnap (snapshot s) k = none := by
          apply lookupSnap_none_of_not_mem
          intro hc
          refine hnotin ?_
          rw [← hk]
          exact (snapshot_keys_sublist s).subset hc
        rw [hnone, lookupNode, if_pos hk.symm, he]
      · rw [lookupNode, if_neg (fun hc => hk hc.symm)]
        exact ih hnd'

theorem lookupNode_mem (s : Store) (k : List String) (n : Node)
    (h : lookupNode s k = some n) : (k, n) ∈ s := by
  induction s with
  | nil => cases h
  | cons e s ih =>
    rw [lookupNode] at h
    split at h
    · rename_i he
      injection h with h
      have hek : (k, n) = e := by
        cases e
        simp_all
      rw [hek]
      exact List.mem_cons_self _ _
    · exact List.mem_cons_of_mem _ (ih h)

theorem mem_ancestorKeys_of_strict_prefix (k k' : List String)
    (hp : k <+: k') (hne : k ≠ k') : k ∈ ancestorKeys k' := by
  rcases hp with ⟨t, rfl⟩
  have ht : t ≠ [] := by
    rintro rfl
    exact hne (by simp)
  simp only [ancestorKeys, List.mem_map, List.mem_range]
  refine ⟨k.length, ?_, ?_⟩
  · rw [List.length_append]
    have := List.length_pos.mpr ht
    omega
  · exact List.take_left k t

theorem mem_snapshot_iff (s : Store) (e : List String × String) :
    e ∈ snapshot s ↔ ∃ a ∈ s, a.1 = e.1 ∧ a.2 = .file e.2 := by
  rw [snapshot, List.mem_filterMap]
  constructor
  · rintro ⟨a, ha, hfa⟩
    cases hn : a.2 with
    | file c =>
      rw [hn] at hfa
      injection hfa with hfa
      exact ⟨a, ha, by rw [← hfa], by rw [hn, ← hfa]⟩
    | dir => rw [hn] at hfa; cases hfa
  · rintro ⟨a, ha, h1, h2⟩
    refine ⟨a, ha, ?_⟩
    rw [h2]
    simp [h1]

end VFS

namespace VFS

theorem dir_of_mem_allAnc (s : Store) (k : List String) (h : WF s)
    (hm : k ∈ allAnc (snapshot s)) : lookupNode s k = some .dir := by
  rcases (mem_allAnc_iff _ _).mp hm with ⟨e, he, hk⟩
  rcases (mem_snapshot_iff s e).mp he with ⟨a, ha, h1, _⟩
  refine h.anc a ha k ?_
  rw [h1]
  exact hk

theorem mem_allAnc_of_dir (s : Store) (k : List String) (h : WF s)
    (hk : lookupNode s k = some .dir) (hne : k ≠ []) :
    k ∈ allAnc (snapshot s) := by
  have hmem : (k, Node.dir) ∈ s := lookupNode_mem s k .dir hk
  rcases h.onFilePath (k, .dir) hmem rfl with hroot | ⟨e', he', hfile, hp, hnee⟩
  · exact absurd hroot hne
  · cases hc : e'.2 with
    | dir => exact absurd hc hfile
    | file c =>
      refine (mem_allAnc_iff _ _).mpr ⟨(e'.1, c), ?_, ?_⟩
      · exact (mem_snapshot_iff s (e'.1, c)).mpr ⟨e', he', rfl, hc⟩
      · exact mem_ancestorKeys_of_strict_prefix k e'.1 hp hnee

theorem lookupNode_emptyStore (k : List String) :
    lookupNode emptyStore k = if k = [] then some .dir else none := by
  rw [emptyStore, lookupNode]
  by_cases hk : k = []
  · rw [if_pos (hk.symm), if_pos hk]
  · rw [if_neg (fun hc => hk hc.symm), if_neg hk, lookupNode]

end VFS

/-- C9 counterexample: the store reached from empty by
`write "/a/f" "x"` then `remove "/a/f"` has an (empty) Directory node at
`/a`, but `restore(snapshot())` of it loses that node — the round-trip is
not observationally equivalent for every store/path. -/
theorem C9_counterexample :
    VFS.lookupNode VFS.emptyDirStore ["a"] = some .dir ∧
    VFS.lookupNode (VFS.restore (VFS.snapshot VFS.emptyDirStore)) ["a"] = none := by
  exact ⟨rfl, rfl⟩

/-- C9 (amended): for every well-formed store in which every non-root
Directory lies on some File's path (no empty directories — the only case
the snapshot format cannot represent), `restore(snapshot())` is
observationally equivalent to the original store: every path has the
same node, hence the same content and kind. -/
theorem C9_roundtrip_amended (s : VFS.Store) (h : VFS.WF s)
    (k : List String) :
    VFS.lookupNode (VFS.restore (VFS.snapshot s)) k = VFS.lookupNode s k := by
  have hsnd : ((VFS.snapshot s).map (·.1)).Nodup :=
    (VFS.snapshot_keys_sublist s).nodup h.nodup
  rw [VFS.restore, VFS.lookupNode_restore_foldl _ _ _ hsnd,
    VFS.lookupSnap_snapshot s h.nodup k]
  cases hlk : VFS.lookupNode s k with
  | some n =>
    cases n with
    | file c => rfl
    | dir =>
      show (if k ∈ VFS.allAnc (VFS.snapshot s) ∧
          VFS.lookupNode VFS.emptyStore k = none then some VFS.Node.dir
        else VFS.lookupNode VFS.emptyStore k) = some VFS.Node.dir
      by_cases hk : k = []
      · rw [VFS.lookupNode_emptyStore, if_pos hk,
          if_neg (fun hc => Option.noConfusion hc.2)]
      · have hmem : k ∈ VFS.allAnc (VFS.snapshot s) :=
          VFS.mem_allAnc_of_dir s k h hlk hk
        have hnone : VFS.lookupNode VFS.emptyStore k = none := by
          rw [VFS.lookupNode_emptyStore, if_neg hk]
        rw [hnone, if_pos (And.intro hmem rfl)]
  | none =>
    show (if k ∈ VFS.allAnc (VFS.snapshot s) ∧
        VFS.lookupNode VFS.emptyStore k = none then some VFS.Node.dir
      else VFS.lookupNode VFS.emptyStore k) = none
    have hk : k ≠ [] := by
      rintro rfl
      rw [h.root] at hlk
      cases hlk
    have hnmem : k ∉ VFS.allAnc (VFS.snapshot s) := by
      intro hmem
      rw [VFS.dir_of_mem_allAnc s k h hmem] at hlk
      cases hlk
    rw [if_neg (fun hc => hnmem hc.1), VFS.lookupNode_emptyStore, if_neg hk]

/-- Witness for C9's amended round-trip at a concrete well-formed store
holding `/a/b.txt`. -/
theorem C9_witness :
    VFS.lookupNode (VFS.restore (VFS.snapshot VFS.wfDemoStore)) ["a"] =
      VFS.lookupNode VFS.wfDemoStore ["a"] :=
  C9_roundtrip_amended VFS.wfDemoStore
    (VFS.WF.mk (by decide) (by decide) (by decide) (by decide)) ["a"]
